import Mathlib

/-!
# kern_utils.c: kernel object resolver and fixup orchestrator

A shallow embedding of `src/kern_utils.c`.  The C functions become state-passing
functions over `KState`; every use of the remote memory channel and of the external
collection and sandbox primitives is appended to `KState.log`, so that statements about
which reads, writes and calls a function issues can be made about its result.

Machine integers are natural numbers; 64-bit address arithmetic is reduced modulo `2^64`
and stored words modulo `2^32`.
-/

namespace KernUtils

/-! ## Remote memory channel -/

/-- Remote memory, one byte per address. -/
abbrev Mem := Nat → Nat

/-- Reduction of an address computation to `uint64_t`. -/
def u64 (n : Nat) : Nat := n % 2 ^ 64

/-- Modelled from the spec: the channel read of `n` bytes at `a` (helpers/kmem.h is not part
of the sources); the value is little-endian. -/
def rd_bytes (m : Mem) : Nat → Nat → Nat
  | _, 0 => 0
  | a, n + 1 => m a % 256 + 256 * rd_bytes m (a + 1) n

/-- Modelled from the spec: the channel write of the low `n` bytes of `v` at `a`. -/
def wr_bytes (m : Mem) (a n v : Nat) : Mem :=
  fun x => if a ≤ x ∧ x < a + n then v / 256 ^ (x - a) % 256 else m x

/-- Value that `rk32` reads from memory `m`. -/
def rd32 (m : Mem) (a : Nat) : Nat := rd_bytes m a 4

/-- Value that `rk64` reads from memory `m`. -/
def rd64 (m : Mem) (a : Nat) : Nat := rd_bytes m a 8

/-- Memory after `wk32(a, v)`. -/
def wr32 (m : Mem) (a v : Nat) : Mem := wr_bytes m a 4 v

/-- Memory after a 64-bit store of `v` at `a`. -/
def wr64 (m : Mem) (a v : Nat) : Mem := wr_bytes m a 8 v

/-! ## Events, environment and state -/

/-- One use of the memory channel or of an external primitive. -/
inductive Event where
  | rk32 (addr : Nat)
  | rk64 (addr : Nat)
  | wk32 (addr val : Nat)
  | OSDictionary_GetItem (dict : Nat) (key : String)
  | OSDictionary_SetItem (dict : Nat) (key : String) (val : Nat)
  | OSArray_ItemCount (array : Nat)
  | OSArray_ItemBuffer (array : Nat)
  | OSString_CopyString (str : Nat)
  | OSArray_Merge (array other : Nat)
  | OSUnserializeXML
  | has_file_extension (sandbox : Nat) (path : String)
  | extension_create_file (path : String) (next : Nat)
  | extension_add (ext sandbox : Nat) (key : String)
  deriving DecidableEq, Repr

/-- The fields of `struct stat` that `fixup_setuid` looks at. -/
structure Stat where
  st_mode : Nat
  st_uid : Nat
  st_gid : Nat
  deriving DecidableEq, Repr

/-- Everything `kern_utils.c` takes from outside: the global offsets set at startup, the
`offsetof_*` table of helpers/offsetof.h, the file-system calls, and the handles the
external allocating primitives hand out. -/
structure Env where
  offset_kernel_task : Nat
  offset_osboolean_true : Nat
  offsetof_bsd_info : Nat
  offsetof_p_pid : Nat
  offsetof_p_p_list : Nat
  offsetof_task : Nat
  offsetof_t_flags : Nat
  offsetof_p_csflags : Nat
  offsetof_p_ucred : Nat
  offsetof_p_svuid : Nat
  offsetof_p_svgid : Nat
  offsetof_ucred_cr_uid : Nat
  offsetof_ucred_cr_svuid : Nat
  offsetof_ucred_cr_svgid : Nat
  offsetof_ucred_cr_groups : Nat
  /-- Result of `proc_pidpath`: the path, or `none` when it returns a negative value. -/
  proc_pidpath : Int → Option String
  /-- Result of `lstat`: the metadata, or `none` when it returns `-1`. -/
  lstat : String → Option Stat
  /-- Handle of the array object `OSUnserializeXML` builds (`0` when it fails). -/
  xml_array : Nat
  /-- Address of the item buffer of that array. -/
  xml_buffer : Nat
  /-- Handle of the string object built for the item at an index. -/
  xml_string : Nat → Nat
  /-- Token `extension_create_file(path, next)` returns (`0` when it fails). -/
  ext_token : String → Nat → Nat

/-- Array object of the kernel runtime: item count and address of the flat item buffer. -/
structure OSArray where
  count : Nat
  buffer : Nat
  deriving DecidableEq, Repr

/-- The remote object graph together with the static variables of `kern_utils.c`. -/
structure KState where
  mem : Mem
  /-- The function-static `kernproc` of `proc_find`. -/
  kernproc : Nat
  /-- The file-static `exception_osarray_cache`. -/
  exception_osarray_cache : Nat
  /-- Entries of each dictionary object; `0` stands for an absent key. -/
  dicts : Nat → String → Nat
  arrays : Nat → OSArray
  /-- Text of each string object. -/
  strings : Nat → String
  /-- Extensions recorded in each sandbox profile, as (key, path). -/
  sandboxes : Nat → List (String × String)
  /-- Paths of the chain each extension token heads, newest first. -/
  ext_chain : Nat → List String
  log : List Event

/-- Append one event to the log. -/
def KState.emit (s : KState) (e : Event) : KState := { s with log := s.log ++ [e] }

/-- Modelled from the spec: `rk32` of helpers/kmem.h, a 32-bit read through the channel. -/
def rk32 (a : Nat) (s : KState) : Nat × KState := (rd32 s.mem a, s.emit (Event.rk32 a))

/-- Modelled from the spec: `rk64` of helpers/kmem.h, a 64-bit read through the channel. -/
def rk64 (a : Nat) (s : KState) : Nat × KState := (rd64 s.mem a, s.emit (Event.rk64 a))

/-- Modelled from the spec: `wk32` of helpers/kmem.h, a 32-bit write through the channel. -/
def wk32 (a v : Nat) (s : KState) : KState :=
  { s with mem := wr32 s.mem a v, log := s.log ++ [Event.wk32 a v] }

/-! ## proc_find -/

/-- Conversion of a `pid_t` to `uint32_t`, as done by `found_pid == pid`. -/
def pid_u32 (pid : Int) : Nat := (pid % 4294967296).toNat

/-- The `while (proc)` loop of `proc_find` (lines 41-51).  The loop has no bound in the
source; the first argument bounds the number of nodes visited, and the result is `none`
when the bound is reached before the loop ends. -/
def proc_walk (env : Env) (pid : Int) : Nat → Nat → KState → Option Nat × KState
  | 0, proc, s => if proc = 0 then (some 0, s) else (none, s)
  | fuel + 1, proc, s =>
    if proc = 0 then (some 0, s)
    else
      let (found_pid, s1) := rk32 (u64 (proc + env.offsetof_p_pid)) s
      if found_pid = pid_u32 pid then (some proc, s1)
      else
        let (next, s2) := rk64 (u64 (proc + env.offsetof_p_p_list)) s1
        proc_walk env pid fuel next s2

/-- Lines 35-51 of `proc_find`: the part after `kernproc` has been resolved. -/
def proc_find_cached (env : Env) (fuel : Nat) (pid : Int) (s : KState) : Option Nat × KState :=
  let proc := s.kernproc
  if pid = 0 then (some proc, s)
  else proc_walk env pid fuel proc s

/-- The function `proc_find` (lines 25-52). -/
def proc_find (env : Env) (fuel : Nat) (pid : Int) (s : KState) : Option Nat × KState :=
  if s.kernproc = 0 then
    let (task, s1) := rk64 env.offset_kernel_task s
    let (kp, s2) := rk64 (u64 (task + env.offsetof_bsd_info)) s1
    let s3 := { s2 with kernproc := kp }
    if kp = 0 then (some 0, s3)
    else proc_find_cached env fuel pid s3
  else proc_find_cached env fuel pid s

/-! ## Constants of the headers -/

/-- Modelled from the spec: the "valid" code-signing bit, `CS_VALID` of the XNU headers
(the header that defines it is not part of the sources). -/
def CS_VALID : Nat := 0x1

/-- Modelled from the spec: the "get-task-allow" code-signing bit, `CS_GET_TASK_ALLOW` of
the XNU headers. -/
def CS_GET_TASK_ALLOW : Nat := 0x4

/-- Modelled from the spec: the "platform-binary" code-signing bit, `CS_PLATFORM_BINARY` of
the XNU headers. -/
def CS_PLATFORM_BINARY : Nat := 0x4000000

/-- Modelled from the spec: the "platform" bit of the task flags, `TF_PLATFORM` of the XNU
headers. -/
def TF_PLATFORM : Nat := 0x400

/-- Modelled from the spec: the setuid mode bit, `S_ISUID` of `sys/stat.h` (octal 4000). -/
def S_ISUID : Nat := 2048

/-- Modelled from the spec: the setgid mode bit, `S_ISGID` of `sys/stat.h` (octal 2000). -/
def S_ISGID : Nat := 1024

/-! ## Flag and credential fixups -/

/-- The function `set_csflags` (lines 98-108). -/
def set_csflags (env : Env) (proc flags : Nat) (value : Bool) (s : KState) : KState :=
  let (csflags, s1) := rk32 (u64 (proc + env.offsetof_p_csflags)) s
  let csflags' :=
    if value = true then csflags ||| flags % 4294967296
    else csflags &&& (4294967295 ^^^ flags % 4294967296)
  wk32 (u64 (proc + env.offsetof_p_csflags)) csflags' s1

/-- The function `fixup_setuid` (lines 111-156). -/
def fixup_setuid (env : Env) (pid : Int) (proc : Nat) (s : KState) : KState :=
  match env.proc_pidpath pid with
  | none => s
  | some pathbuf =>
    match env.lstat pathbuf with
    | none => s
    | some file_st =>
      if file_st.st_mode &&& S_ISUID = 0 ∧ file_st.st_mode &&& S_ISGID = 0 then s
      else if proc = 0 then s
      else
        let fileUid := file_st.st_uid % 4294967296
        let fileGid := file_st.st_gid % 4294967296
        let (ucred, s1) := rk64 (u64 (proc + env.offsetof_p_ucred)) s
        let s2 :=
          if file_st.st_mode &&& S_ISUID ≠ 0 then
            wk32 (u64 (ucred + env.offsetof_ucred_cr_uid)) fileUid
              (wk32 (u64 (ucred + env.offsetof_ucred_cr_svuid)) fileUid
                (wk32 (u64 (proc + env.offsetof_p_svuid)) fileUid s1))
          else s1
        if file_st.st_mode &&& S_ISGID ≠ 0 then
          wk32 (u64 (ucred + env.offsetof_ucred_cr_groups)) fileGid
            (wk32 (u64 (ucred + env.offsetof_ucred_cr_svgid)) fileGid
              (wk32 (u64 (proc + env.offsetof_p_svgid)) fileGid s2))
        else s2

/-- The function `set_tfplatform` (lines 158-166). -/
def set_tfplatform (env : Env) (proc : Nat) (s : KState) : KState :=
  let (task, s1) := rk64 (u64 (proc + env.offsetof_task)) s
  let (t_flags, s2) := rk32 (u64 (task + env.offsetof_t_flags)) s1
  if t_flags &&& TF_PLATFORM = 0 then
    wk32 (u64 (task + env.offsetof_t_flags)) (t_flags ||| TF_PLATFORM) s2
  else s2

/-! ## Exception array singleton -/

/-- The table `abs_path_exceptions` (lines 168-173), without its terminating `NULL`. -/
def abs_path_exceptions : List String :=
  ["/Library", "/private/var/mobile/Library", "/System/Library/Caches"]

/-- The `<string>` elements of the XML text given to `OSUnserializeXML` (lines 180-184). -/
def exception_xml_strings : List String :=
  ["/Library/", "/private/var/mobile/Library/", "/System/Library/Caches/"]

/-- Pointwise update of a table. -/
def upd {β : Type} (f : Nat → β) (a : Nat) (v : β) : Nat → β :=
  fun x => if x = a then v else f x

/-- Store the string objects of a new array: item `i` gets the handle `env.xml_string i`,
written into the item buffer at stride 8. -/
def store_items (env : Env) : List String → Nat → KState → KState
  | [], _, s => s
  | str :: rest, i, s =>
    store_items env rest (i + 1)
      { s with
        strings := upd s.strings (env.xml_string i) str
        mem := wr64 s.mem (u64 (env.xml_buffer + i * 8)) (env.xml_string i) }

/-- Modelled from the spec: `OSUnserializeXML` of helpers/osobject.h applied to an `<array>`
of `<string>` elements, given here as the list of the strings.  It builds the array object
at the handle `env.xml_array` and returns the handle, or returns `0` when that handle is `0`. -/
def OSUnserializeXML (env : Env) (strs : List String) (s : KState) : Nat × KState :=
  let s1 := s.emit Event.OSUnserializeXML
  if env.xml_array = 0 then (0, s1)
  else
    let s2 := store_items env strs 0 s1
    (env.xml_array,
      { s2 with arrays := upd s2.arrays env.xml_array ⟨strs.length, env.xml_buffer⟩ })

/-- The function `get_exception_osarray` (lines 176-189). -/
def get_exception_osarray (env : Env) (s : KState) : Nat × KState :=
  if s.exception_osarray_cache = 0 then
    let (h, s1) := OSUnserializeXML env exception_xml_strings s
    (h, { s1 with exception_osarray_cache := h })
  else (s.exception_osarray_cache, s)

/-- The string `exc_key` (line 198). -/
def exc_key : String := "com.apple.security.exception.files.absolute-path.read-only"

/-! ## Sandbox extensions -/

/-- Modelled from the spec: `has_file_extension` of sandbox.h, true when the path is already
recorded as an extension of the profile. -/
def has_file_extension (sandbox : Nat) (path : String) (s : KState) : Bool × KState :=
  ((s.sandboxes sandbox).any (fun e => e.2 == path),
    s.emit (Event.has_file_extension sandbox path))

/-- Modelled from the spec: `extension_create_file` of sandbox.h, which creates a token for
the path chained in front of `next`; the token is `env.ext_token path next`, and `0` means
that the creation failed. -/
def extension_create_file (env : Env) (path : String) (next : Nat) (s : KState) :
    Nat × KState :=
  let s1 := s.emit (Event.extension_create_file path next)
  let tok := env.ext_token path next
  if tok = 0 then (0, s1)
  else
    (tok, { s1 with
      ext_chain := upd s1.ext_chain tok (path :: (if next = 0 then [] else s1.ext_chain next)) })

/-- Modelled from the spec: `extension_add` of sandbox.h, which attaches the whole chain
headed by `ext` to the profile under `key`. -/
def extension_add (ext sandbox : Nat) (key : String) (s : KState) : KState :=
  let s1 := s.emit (Event.extension_add ext sandbox key)
  { s1 with
    sandboxes := upd s1.sandboxes sandbox
      (s1.sandboxes sandbox ++ (s1.ext_chain ext).map (fun p => (key, p))) }

/-- The `for` loop of `set_sandbox_extensions` (lines 210-219) over the remaining entries
of `abs_path_exceptions`; `ext` is the chain built so far. -/
def sandbox_loop (env : Env) (sandbox : Nat) : List String → Nat → KState → Nat × KState
  | [], ext, s => (ext, s)
  | exception :: rest, ext, s =>
    let (has, s1) := has_file_extension sandbox exception s
    if has = true then sandbox_loop env sandbox rest ext s1
    else
      let (ext', s2) := extension_create_file env exception ext s1
      sandbox_loop env sandbox rest ext' s2

/-- The function `set_sandbox_extensions` (lines 200-224). -/
def set_sandbox_extensions (env : Env) (proc : Nat) (s : KState) : KState :=
  let (proc_ucred, s1) := rk64 (u64 (proc + env.offsetof_p_ucred)) s
  let (label, s2) := rk64 (u64 (proc_ucred + 0x78)) s1
  let (sandbox, s3) := rk64 (u64 (label + 0x8 + 0x8)) s2
  if sandbox = 0 then s3
  else
    let (ext, s4) := sandbox_loop env sandbox abs_path_exceptions 0 s3
    if ext ≠ 0 then extension_add ext sandbox exc_key s4
    else s4

/-! ## Collection adapter -/

/-- Modelled from the spec: `OSDictionary_GetItem` of helpers/osobject.h, the value stored
under the key, `0` when there is none. -/
def OSDictionary_GetItem (dict : Nat) (key : String) (s : KState) : Nat × KState :=
  (s.dicts dict key, s.emit (Event.OSDictionary_GetItem dict key))

/-- Modelled from the spec: `OSDictionary_SetItem` of helpers/osobject.h, which stores the
value under the key and reports success. -/
def OSDictionary_SetItem (dict : Nat) (key : String) (val : Nat) (s : KState) :
    Bool × KState :=
  let s1 := s.emit (Event.OSDictionary_SetItem dict key val)
  (true, { s1 with
    dicts := upd s1.dicts dict (fun k => if k = key then val else s1.dicts dict k) })

/-- Modelled from the spec: `OSArray_ItemCount` of helpers/osobject.h. -/
def OSArray_ItemCount (array : Nat) (s : KState) : Nat × KState :=
  ((s.arrays array).count, s.emit (Event.OSArray_ItemCount array))

/-- Modelled from the spec: `OSArray_ItemBuffer` of helpers/osobject.h, the address of the
flat buffer of item handles. -/
def OSArray_ItemBuffer (array : Nat) (s : KState) : Nat × KState :=
  ((s.arrays array).buffer, s.emit (Event.OSArray_ItemBuffer array))

/-- Modelled from the spec: `OSString_CopyString` of helpers/osobject.h, a copy of the text
of a string object. -/
def OSString_CopyString (str : Nat) (s : KState) : String × KState :=
  (s.strings str, s.emit (Event.OSString_CopyString str))

/-- Item handles of an array, read from its buffer at stride 8. -/
def array_items (m : Mem) (a : OSArray) : List Nat :=
  (List.range a.count).map (fun i => rd64 m (u64 (a.buffer + i * 8)))

/-- Store item handles one after the other from the address `dst` on. -/
def append_items (m : Mem) : Nat → List Nat → Mem
  | _, [] => m
  | dst, item :: rest => append_items (wr64 m (u64 dst) item) (dst + 8) rest

/-- Modelled from the spec: `OSArray_Merge` of helpers/osobject.h, which appends the items
of `other` to `array` and reports success. -/
def OSArray_Merge (array other : Nat) (s : KState) : Bool × KState :=
  let s1 := s.emit (Event.OSArray_Merge array other)
  let dst := s1.arrays array
  let items := array_items s1.mem (s1.arrays other)
  (true, { s1 with
    mem := append_items s1.mem (dst.buffer + dst.count * 8) items
    arrays := upd s1.arrays array ⟨dst.count + items.length, dst.buffer⟩ })

/-- Result of `strcasecmp(a, b) == 0`: equality after lowering the ASCII letters. -/
def strcasecmp_eq (a b : String) : Bool :=
  a.data.map Char.toLower == b.data.map Char.toLower

/-! ## Entitlements -/

/-- The inner `for` loop of `set_amfi_entitlements` (lines 268-278): the scan of the items
`i, i + 1, ...` of the existing array for `exception`; the first argument is the number of
items left, and the result is `foundException`. -/
def scan_items (itemBuffer : Nat) (exception : String) : Nat → Nat → KState → Bool × KState
  | 0, _, s => (false, s)
  | left + 1, i, s =>
    let (item, s1) := rk64 (u64 (itemBuffer + i * 8)) s
    let (entitlementString, s2) := OSString_CopyString item s1
    if strcasecmp_eq entitlementString exception = true then (true, s2)
    else scan_items itemBuffer exception left (i + 1) s2

/-- The outer `for` loop of `set_amfi_entitlements` (lines 266-283) over the remaining
entries of `abs_path_exceptions`; it stops at the first entry that is not found, and the
result is `foundEntitlements`. -/
def scan_exceptions (itemBuffer itemCount : Nat) : List String → KState → Bool × KState
  | [], s => (true, s)
  | exception :: rest, s =>
    let (foundException, s1) := scan_items itemBuffer exception itemCount 0 s
    if foundException = true then scan_exceptions itemBuffer itemCount rest s1
    else (false, s1)

/-- Lines 227-248 of `set_amfi_entitlements`: the entitlement dictionary is looked up and
the two boolean entries are set; the result is `amfi_entitlements`.  The value `rv` only
feeds the debug output and is dropped. -/
def set_amfi_booleans (env : Env) (proc : Nat) (s : KState) : Nat × KState :=
  let (proc_ucred, s1) := rk64 (u64 (proc + env.offsetof_p_ucred)) s
  let (label, s2) := rk64 (u64 (proc_ucred + 0x78)) s1
  let (amfi_entitlements, s3) := rk64 (u64 (label + 0x8)) s2
  let (key1, s4) :=
    OSDictionary_GetItem amfi_entitlements "com.apple.private.skip-library-validation" s3
  let s5 :=
    if key1 ≠ env.offset_osboolean_true then
      (OSDictionary_SetItem amfi_entitlements "com.apple.private.skip-library-validation"
        env.offset_osboolean_true s4).2
    else s4
  let (key2, s6) := OSDictionary_GetItem amfi_entitlements "get-task-allow" s5
  let s7 :=
    if key2 ≠ env.offset_osboolean_true then
      (OSDictionary_SetItem amfi_entitlements "get-task-allow" env.offset_osboolean_true s6).2
    else s6
  (amfi_entitlements, s7)

/-- Lines 250-294 of `set_amfi_entitlements`: the path-exception entry.  The arguments of
`DEBUGLOG` are not evaluated. -/
def set_amfi_exceptions (env : Env) (amfi_entitlements : Nat) (s : KState) : KState :=
  let (present, s1) := OSDictionary_GetItem amfi_entitlements exc_key s
  if present = 0 then
    let (single, s2) := get_exception_osarray env s1
    (OSDictionary_SetItem amfi_entitlements exc_key single s2).2
  else
    let (single, s2) := get_exception_osarray env s1
    if present ≠ single then
      let (itemCount, s3) := OSArray_ItemCount present s2
      let (itemBuffer, s4) := OSArray_ItemBuffer present s3
      let (foundEntitlements, s5) :=
        scan_exceptions itemBuffer itemCount abs_path_exceptions s4
      if foundEntitlements = false then
        let (single', s6) := get_exception_osarray env s5
        (OSArray_Merge present single' s6).2
      else s5
    else s2

/-- The function `set_amfi_entitlements` (lines 226-299). -/
def set_amfi_entitlements (env : Env) (proc : Nat) (s : KState) : KState :=
  let (amfi_entitlements, s1) := set_amfi_booleans env proc s
  set_amfi_exceptions env amfi_entitlements s1

/-- The function `fixup_tfplatform` (lines 301-313). -/
def fixup_tfplatform (env : Env) (proc : Nat) (s : KState) : KState :=
  let (proc_ucred, s1) := rk64 (u64 (proc + env.offsetof_p_ucred)) s
  let (label, s2) := rk64 (u64 (proc_ucred + 0x78)) s1
  let (amfi_entitlements, s3) := rk64 (u64 (label + 0x8)) s2
  let (key, s4) := OSDictionary_GetItem amfi_entitlements "platform-application" s3
  if key = env.offset_osboolean_true then
    set_csflags env proc CS_PLATFORM_BINARY true (set_tfplatform env proc s4)
  else s4

/-- The function `fixup_sandbox` (lines 315-317). -/
def fixup_sandbox (env : Env) (proc : Nat) (s : KState) : KState :=
  set_sandbox_extensions env proc s

/-- The function `fixup_cs_valid` (lines 319-321). -/
def fixup_cs_valid (env : Env) (proc : Nat) (s : KState) : KState :=
  set_csflags env proc CS_VALID true s

/-- The function `fixup_get_task_allow` (lines 323-325). -/
def fixup_get_task_allow (env : Env) (proc : Nat) (s : KState) : KState :=
  set_csflags env proc CS_GET_TASK_ALLOW true s

/-- The function `fixup` (lines 327-344); `none` when the walk of `proc_find` did not end
within the bound. -/
def fixup (env : Env) (fuel : Nat) (pid : Int) (s : KState) : Option KState :=
  match proc_find env fuel pid s with
  | (none, _) => none
  | (some proc, s1) =>
    if proc = 0 then some s1
    else
      some (set_amfi_entitlements env proc
        (fixup_get_task_allow env proc
          (fixup_tfplatform env proc
            (fixup_sandbox env proc
              (fixup_setuid env pid proc s1)))))

/-! ## Vocabulary of the statements -/

/-- The process list of memory `m` that starts at `head` consists of the nodes `nodes`:
every node is non-zero, each is linked to the next through the 64-bit pointer at
`offsetof_p_p_list`, and the last one is followed by the null pointer. -/
def ProcList (env : Env) (m : Mem) : Nat → List Nat → Prop
  | head, [] => head = 0
  | head, n :: rest =>
    head = n ∧ n ≠ 0 ∧ ProcList env m (rd64 m (u64 (n + env.offsetof_p_p_list))) rest

instance ProcList.dec (env : Env) (m : Mem) :
    ∀ (head : Nat) (nodes : List Nat), Decidable (ProcList env m head nodes)
  | head, [] => inferInstanceAs (Decidable (head = 0))
  | head, n :: rest =>
    have := ProcList.dec env m (rd64 m (u64 (n + env.offsetof_p_p_list))) rest
    inferInstanceAs (Decidable (head = n ∧ n ≠ 0 ∧ _))

/-- Value the two reads of the resolution give in memory `m`. -/
def resolved_base (env : Env) (m : Mem) : Nat :=
  rd64 m (u64 (rd64 m env.offset_kernel_task + env.offsetof_bsd_info))

/-- The head `proc_find` starts from: the cached `kernproc`, or what the two reads of the
resolution give when the cache is empty. -/
def kernproc_base (env : Env) (s : KState) : Nat :=
  if s.kernproc = 0 then resolved_base env s.mem else s.kernproc

/-- The 32-bit pid field of the node at `n`. -/
def pid_field (env : Env) (m : Mem) (n : Nat) : Nat := rd32 m (u64 (n + env.offsetof_p_pid))

/-- Reads through the memory channel. -/
def Event.is_read : Event → Bool
  | Event.rk32 _ => true
  | Event.rk64 _ => true
  | _ => false

/-- The `wk32` calls recorded in a log, as (address, value), in order. -/
def writes : List Event → List (Nat × Nat)
  | [] => []
  | Event.wk32 a v :: rest => (a, v) :: writes rest
  | _ :: rest => writes rest

/-- Memory after a list of 32-bit stores, applied in order. -/
def apply_writes (m : Mem) : List (Nat × Nat) → Mem
  | [] => m
  | (a, v) :: rest => apply_writes (wr32 m a v) rest

/-- The `OSArray_Merge` calls recorded in a log, in order. -/
def merge_calls : List Event → List Event
  | [] => []
  | Event.OSArray_Merge a b :: rest => Event.OSArray_Merge a b :: merge_calls rest
  | _ :: rest => merge_calls rest

/-- The `extension_add` calls recorded in a log, in order. -/
def extension_add_calls : List Event → List Event
  | [] => []
  | Event.extension_add e sb k :: rest => Event.extension_add e sb k :: extension_add_calls rest
  | _ :: rest => extension_add_calls rest

/-- The entitlement dictionary of a process: `rk64(rk64(p_ucred + 0x78) + 0x8)`. -/
def amfi_entitlements_of (env : Env) (m : Mem) (proc : Nat) : Nat :=
  rd64 m (u64 (rd64 m (u64 (rd64 m (u64 (proc + env.offsetof_p_ucred)) + 0x78)) + 0x8))

/-- The sandbox profile of a process: `rk64(rk64(p_ucred + 0x78) + 0x8 + 0x8)`. -/
def sandbox_of (env : Env) (m : Mem) (proc : Nat) : Nat :=
  rd64 m (u64 (rd64 m (u64 (rd64 m (u64 (proc + env.offsetof_p_ucred)) + 0x78)) + 0x8 + 0x8))

/-- Texts of the items of the array object `a`, in order. -/
def array_strings (s : KState) (a : Nat) : List String :=
  (array_items s.mem (s.arrays a)).map s.strings

/-- Every entry of `abs_path_exceptions` equals some item of the array `a` under
case-insensitive comparison. -/
def all_present (s : KState) (a : Nat) : Prop :=
  ∀ p ∈ abs_path_exceptions, ∃ str ∈ array_strings s a, strcasecmp_eq str p = true

instance all_present.dec (s : KState) (a : Nat) : Decidable (all_present s a) :=
  inferInstanceAs
    (Decidable (∀ p ∈ abs_path_exceptions, ∃ str ∈ array_strings s a, strcasecmp_eq str p = true))

/-- A sequence of calls of `proc_find`; each call comes with the pid asked for and with
the contents of the remote memory at the time of the call. -/
def proc_find_calls (env : Env) (fuel : Nat) :
    List (Int × Mem) → KState → List (Option Nat) × KState
  | [], s => ([], s)
  | (pid, m) :: rest, s =>
    let (r, s1) := proc_find env fuel pid { s with mem := m }
    let (rs, s2) := proc_find_calls env fuel rest s1
    (r :: rs, s2)

/-- The two reads of the resolution in memory `m`. -/
def resolution_reads (env : Env) (m : Mem) : List Event :=
  [Event.rk64 env.offset_kernel_task,
   Event.rk64 (u64 (rd64 m env.offset_kernel_task + env.offsetof_bsd_info))]

/-- The reads of a traversal from `proc` on, as the spec words them: one read of the pid per
node visited, followed by one read of the link when the pid differs. -/
def walk_reads (env : Env) (pid : Int) (m : Mem) : Nat → Nat → List Event
  | 0, _ => []
  | fuel + 1, proc =>
    if proc = 0 then []
    else
      Event.rk32 (u64 (proc + env.offsetof_p_pid)) ::
        (if rd32 m (u64 (proc + env.offsetof_p_pid)) = pid_u32 pid then []
         else
           Event.rk64 (u64 (proc + env.offsetof_p_p_list)) ::
             walk_reads env pid m fuel (rd64 m (u64 (proc + env.offsetof_p_p_list))))

/-- The reads of a lookup that starts from an already known head. -/
def lookup_reads (env : Env) (fuel : Nat) (pid : Int) (m : Mem) (head : Nat) : List Event :=
  if pid = 0 then [] else walk_reads env pid m fuel head

/-- The reads of a sequence of calls as the spec words them: while nothing is cached each
call issues the two reads of the resolution, a resolution that reads zero caches nothing,
and once a non-zero base is cached no call issues them again. -/
def calls_reads (env : Env) (fuel : Nat) : Nat → List (Int × Mem) → List Event
  | _, [] => []
  | cache, (pid, m) :: rest =>
    if cache = 0 then
      resolution_reads env m ++
        (if resolved_base env m = 0 then calls_reads env fuel 0 rest
         else lookup_reads env fuel pid m (resolved_base env m) ++
           calls_reads env fuel (resolved_base env m) rest)
    else lookup_reads env fuel pid m cache ++ calls_reads env fuel cache rest

/-- The reads of a sequence of calls that only ever use the cached head. -/
def cached_reads (env : Env) (fuel : Nat) (head : Nat) : List (Int × Mem) → List Event
  | [] => []
  | (pid, m) :: rest => lookup_reads env fuel pid m head ++ cached_reads env fuel head rest

/-! ## A mock object graph -/

/-- Memory holding the given cells (address, size in bytes, value), zero elsewhere. -/
def mem_of : List (Nat × Nat × Nat) → Mem
  | [] => fun _ => 0
  | (a, n, v) :: rest => wr_bytes (mem_of rest) a n v

/-- Offsets and outside world of the mock: the executable of pid 77 is setuid and setgid,
owned by uid 0 and gid 80. -/
def mock_env : Env where
  offset_kernel_task := 0x1000
  offset_osboolean_true := 0x7001
  offsetof_bsd_info := 0x368
  offsetof_p_pid := 0x10
  offsetof_p_p_list := 0x8
  offsetof_task := 0x18
  offsetof_t_flags := 0x3a0
  offsetof_p_csflags := 0x2a8
  offsetof_p_ucred := 0x100
  offsetof_p_svuid := 0x40
  offsetof_p_svgid := 0x44
  offsetof_ucred_cr_uid := 0x18
  offsetof_ucred_cr_svuid := 0x20
  offsetof_ucred_cr_svgid := 0x6c
  offsetof_ucred_cr_groups := 0x28
  proc_pidpath := fun pid => if pid = 77 then some "/usr/bin/tool" else none
  lstat := fun path => if path = "/usr/bin/tool" then some ⟨0o106755, 0, 80⟩ else none
  xml_array := 0x90000
  xml_buffer := 0x91000
  xml_string := fun i => 0x92000 + i
  ext_token := fun path _ =>
    if path = "/Library" then 0xa0000
    else if path = "/private/var/mobile/Library" then 0xa1000
    else 0xa2000

/-- Memory of the mock: the kernel task global at 0x1000, a process list of three nodes
(pids 0, 1 and 77) headed at 0x10000, and for pid 77 a task at 0x50000, a credential at
0x40000 with label 0x60000, entitlement dictionary 0x70000 and sandbox profile 0x80000.
The saved uid of pid 77 is 501, its csflags and t_flags are 0, and the item buffer at
0xb1000 holds the string handle 0xb2000. -/
def mock_mem : Mem := mem_of [
  (0x1000, 8, 0x2000), (0x2368, 8, 0x10000),
  (0x10008, 8, 0x20000), (0x10010, 4, 0),
  (0x20008, 8, 0x30000), (0x20010, 4, 1),
  (0x30008, 8, 0), (0x30010, 4, 77),
  (0x30018, 8, 0x50000), (0x30100, 8, 0x40000), (0x30040, 4, 501), (0x30044, 4, 501),
  (0x40078, 8, 0x60000), (0x60008, 8, 0x70000), (0x60010, 8, 0x80000),
  (0xb1000, 8, 0xb2000)]

/-- The mock before any call: empty caches, empty dictionaries and sandbox profiles, and an
array object 0xb0000 whose only item is the string "/var/tmp/". -/
def mock_state : KState where
  mem := mock_mem
  kernproc := 0
  exception_osarray_cache := 0
  dicts := fun _ _ => 0
  arrays := fun a => if a = 0xb0000 then ⟨1, 0xb1000⟩ else ⟨0, 0⟩
  strings := fun h => if h = 0xb2000 then "/var/tmp/" else ""
  sandboxes := fun _ => []
  ext_chain := fun _ => []
  log := []

/-- The mock with `platform-application` set to the true singleton for pid 77. -/
def mock_platform : KState :=
  { mock_state with
    dicts := fun d k => if d = 0x70000 ∧ k = "platform-application" then 0x7001 else 0 }

/-- The mock in which the path-exception entry of pid 77 is the array 0xb0000, which holds
none of the required entries. -/
def mock_missing : KState :=
  { mock_state with dicts := fun d k => if d = 0x70000 ∧ k = exc_key then 0xb0000 else 0 }

/-- The mock in which the path-exception entry of pid 77 is an array that holds the three
required entries in upper case. -/
def mock_satisfied : KState :=
  { mock_state with
    mem := wr64 (wr64 (wr64 mock_mem 0xc1000 0xc2000) 0xc1008 0xc2001) 0xc1010 0xc2002
    dicts := fun d k => if d = 0x70000 ∧ k = exc_key then 0xc0000 else 0
    arrays := fun a => if a = 0xc0000 then ⟨3, 0xc1000⟩ else ⟨0, 0⟩
    strings := fun h =>
      if h = 0xc2000 then "/LIBRARY"
      else if h = 0xc2001 then "/Private/Var/Mobile/Library"
      else if h = 0xc2002 then "/SYSTEM/LIBRARY/CACHES"
      else "" }

/-- The mock in which the sandbox profile of pid 77 already records the three paths. -/
def mock_extended : KState :=
  { mock_state with
    sandboxes := fun sb =>
      if sb = 0x80000 then
        [(exc_key, "/Library"), (exc_key, "/private/var/mobile/Library"),
         (exc_key, "/System/Library/Caches")]
      else [] }

/-- An outside world in which only the first creation of an extension token succeeds. -/
def mock_env_first_only : Env :=
  { mock_env with ext_token := fun path _ => if path = "/Library" then 0xa0000 else 0 }

/-- An outside world in which the second creation of an extension token fails. -/
def mock_env_second_fails : Env :=
  { mock_env with
    ext_token := fun path _ =>
      if path = "/Library" then 0xa0000
      else if path = "/private/var/mobile/Library" then 0
      else 0xa2000 }

/-- Memory in which the resolution reads zero. -/
def mock_mem_unresolved : Mem := fun _ => 0

/-! ## Memory channel lemmas -/

theorem rd_bytes_lt (m : Mem) : ∀ (n a : Nat), rd_bytes m a n < 256 ^ n := by
  intro n
  induction n with
  | zero => intro a; simp [rd_bytes]
  | succ n ih =>
    intro a
    have h1 := ih (a + 1)
    have h2 : m a % 256 < 256 := Nat.mod_lt _ (by norm_num)
    simp only [rd_bytes, pow_succ]
    omega

theorem rd_bytes_wr_inside (m : Mem) (a n v : Nat) :
    ∀ (k i : Nat), i + k ≤ n →
      rd_bytes (wr_bytes m a n v) (a + i) k = v / 256 ^ i % 256 ^ k := by
  intro k
  induction k with
  | zero => intro i _; simp [rd_bytes, Nat.mod_one]
  | succ k ih =>
    intro i hi
    have h := ih (i + 1) (by omega)
    have hw : wr_bytes m a n v (a + i) = v / 256 ^ i % 256 := by
      simp only [wr_bytes]
      rw [if_pos (by omega)]
      simp
    simp only [rd_bytes, hw, Nat.add_assoc, h]
    rw [pow_succ 256 i, ← Nat.div_div_eq_div_mul, pow_succ 256 k, Nat.mul_comm (256 ^ k) 256,
      Nat.mod_mul, Nat.mod_mod]

theorem rd_bytes_wr_outside (m : Mem) (a n v : Nat) :
    ∀ (k b : Nat), b + k ≤ a ∨ a + n ≤ b →
      rd_bytes (wr_bytes m a n v) b k = rd_bytes m b k := by
  intro k
  induction k with
  | zero => intro b _; simp [rd_bytes]
  | succ k ih =>
    intro b hb
    have h := ih (b + 1) (by omega)
    have hw : wr_bytes m a n v b = m b := by
      simp only [wr_bytes]
      rw [if_neg (by omega)]
    simp only [rd_bytes, hw, h]

theorem rd32_lt (m : Mem) (a : Nat) : rd32 m a < 4294967296 := rd_bytes_lt m 4 a

theorem rd32_wr32_same (m : Mem) (a v : Nat) : rd32 (wr32 m a v) a = v % 4294967296 := by
  have h := rd_bytes_wr_inside m a 4 v 4 0 (by omega)
  simpa [rd32, wr32] using h

theorem rd32_wr32_other (m : Mem) (a b v : Nat) (h : b + 4 ≤ a ∨ a + 4 ≤ b) :
    rd32 (wr32 m a v) b = rd32 m b :=
  rd_bytes_wr_outside m a 4 v 4 b h

theorem wr32_outside (m : Mem) (a v x : Nat) (h : x < a ∨ a + 4 ≤ x) : wr32 m a v x = m x := by
  simp only [wr32, wr_bytes]
  rw [if_neg (by omega)]

theorem or_bit_of_and_ne_zero (x k : Nat) (h : x &&& 2 ^ k ≠ 0) : x ||| 2 ^ k = x := by
  apply Nat.eq_of_testBit_eq
  intro i
  rw [Nat.testBit_or, Nat.testBit_two_pow]
  by_cases hik : k = i
  · subst hik
    have : x.testBit k = true := by
      by_contra hx
      apply h
      apply Nat.eq_of_testBit_eq
      intro j
      rw [Nat.testBit_and, Nat.testBit_two_pow]
      by_cases hkj : k = j
      · subst hkj; simp [hx]
      · simp [hkj]
    simp [this]
  · simp [hik]

theorem or_lt_u32 (x y : Nat) (hx : x < 4294967296) (hy : y < 4294967296) :
    x ||| y < 4294967296 := by
  have : (4294967296 : Nat) = 2 ^ 32 := by norm_num
  rw [this] at hx hy ⊢
  exact Nat.or_lt_two_pow hx hy

/-! ## Log lemmas -/

@[simp] theorem emit_mem (s : KState) (e : Event) : (s.emit e).mem = s.mem := rfl
@[simp] theorem emit_kernproc (s : KState) (e : Event) : (s.emit e).kernproc = s.kernproc := rfl
@[simp] theorem emit_cache (s : KState) (e : Event) :
    (s.emit e).exception_osarray_cache = s.exception_osarray_cache := rfl
@[simp] theorem emit_dicts (s : KState) (e : Event) : (s.emit e).dicts = s.dicts := rfl
@[simp] theorem emit_arrays (s : KState) (e : Event) : (s.emit e).arrays = s.arrays := rfl
@[simp] theorem emit_strings (s : KState) (e : Event) : (s.emit e).strings = s.strings := rfl
@[simp] theorem emit_sandboxes (s : KState) (e : Event) : (s.emit e).sandboxes = s.sandboxes := rfl
@[simp] theorem emit_ext_chain (s : KState) (e : Event) : (s.emit e).ext_chain = s.ext_chain := rfl
@[simp] theorem emit_log (s : KState) (e : Event) : (s.emit e).log = s.log ++ [e] := rfl

theorem writes_append (l1 l2 : List Event) : writes (l1 ++ l2) = writes l1 ++ writes l2 := by
  induction l1 with
  | nil => rfl
  | cons e rest ih => cases e <;> simp [writes, ih]

theorem apply_writes_outside (x : Nat) :
    ∀ (ws : List (Nat × Nat)) (m : Mem), (∀ w ∈ ws, x < w.1 ∨ w.1 + 4 ≤ x) →
      apply_writes m ws x = m x := by
  intro ws
  induction ws with
  | nil => intro m _; rfl
  | cons w rest ih =>
    intro m h
    obtain ⟨a, v⟩ := w
    simp only [apply_writes]
    rw [ih _ (fun w hw => h w (List.mem_cons_of_mem _ hw))]
    exact wr32_outside m a v x (h (a, v) (List.mem_cons_self _ _))

theorem merge_calls_append (l1 l2 : List Event) :
    merge_calls (l1 ++ l2) = merge_calls l1 ++ merge_calls l2 := by
  induction l1 with
  | nil => rfl
  | cons e rest ih => cases e <;> simp [merge_calls, ih]

/-! ## proc_find -/

theorem proc_walk_result (env : Env) (pid : Int) :
    ∀ (nodes : List Nat) (fuel proc : Nat) (s : KState),
      ProcList env s.mem proc nodes → nodes.length ≤ fuel →
      (proc_walk env pid fuel proc s).1 =
        some ((nodes.find? (fun n => decide (pid_field env s.mem n = pid_u32 pid))).getD 0) := by
  intro nodes
  induction nodes with
  | nil =>
    intro fuel proc s h _
    simp only [ProcList] at h
    subst h
    cases fuel <;> simp [proc_walk]
  | cons n rest ih =>
    intro fuel proc s h hf
    obtain ⟨h1, h2, h3⟩ := h
    subst h1
    cases fuel with
    | zero => simp at hf
    | succ fuel =>
      simp only [List.length_cons, Nat.add_le_add_iff_right] at hf
      by_cases hp : pid_field env s.mem proc = pid_u32 pid
      · have hp' : rd32 s.mem (u64 (proc + env.offsetof_p_pid)) = pid_u32 pid := hp
        simp [proc_walk, h2, rk32, hp, hp']
      · have hp' : ¬ rd32 s.mem (u64 (proc + env.offsetof_p_pid)) = pid_u32 pid := hp
        simp only [proc_walk, h2, rk32, rk64, hp', if_false, List.find?_cons, hp, decide_False]
        exact ih fuel _ _ h3 hf

/-- Claim C1: when the process list that starts at the resolved head is finite and ends
with the null pointer, `proc_find` of a non-zero pid returns, once the bound covers the
list, the first node in list order whose pid field equals the pid, and `0` when no node
carries it; an unresolved head is the empty list and gives `0`. -/
theorem proc_find_first_match (env : Env) (s : KState) (pid : Int) (nodes : List Nat)
    (fuel : Nat) (hpid : pid ≠ 0)
    (hlist : ProcList env s.mem (kernproc_base env s) nodes) (hfuel : nodes.length ≤ fuel) :
    (proc_find env fuel pid s).1 =
      some ((nodes.find? (fun n => decide (pid_field env s.mem n = pid_u32 pid))).getD 0) := by
  unfold kernproc_base resolved_base at hlist
  unfold proc_find
  by_cases hk : s.kernproc = 0
  · simp only [hk, if_true, rk64, emit_mem] at hlist ⊢
    by_cases hb : rd64 s.mem (u64 (rd64 s.mem env.offset_kernel_task + env.offsetof_bsd_info)) = 0
    · rw [hb] at hlist
      cases nodes with
      | nil => simp [hb]
      | cons n rest => exact absurd hlist.1.symm hlist.2.1
    · simp only [hb, if_false, proc_find_cached, hpid]
      exact proc_walk_result env pid nodes fuel _ _ hlist hfuel
  · simp only [hk, if_false, proc_find_cached, hpid] at hlist ⊢
    exact proc_walk_result env pid nodes fuel _ _ hlist hfuel

/-- Witness of C1 on the mock: pid 77 is found at the third node, 0x30000. -/
theorem proc_find_first_match_witness :
    (77 : Int) ≠ 0 ∧
    ProcList mock_env mock_state.mem (kernproc_base mock_env mock_state)
      [0x10000, 0x20000, 0x30000] ∧
    (proc_find mock_env 3 77 mock_state).1 = some 0x30000 :=
  ⟨by decide, by decide,
    (proc_find_first_match mock_env mock_state 77 [0x10000, 0x20000, 0x30000] 3
      (by decide) (by decide) (by decide)).trans (by decide)⟩

theorem proc_walk_state (env : Env) (pid : Int) :
    ∀ (fuel proc : Nat) (s : KState),
      (proc_walk env pid fuel proc s).2 =
        { s with log := s.log ++ walk_reads env pid s.mem fuel proc } := by
  intro fuel
  induction fuel with
  | zero => intro proc s; by_cases h : proc = 0 <;> simp [proc_walk, walk_reads, h]
  | succ fuel ih =>
    intro proc s
    by_cases h : proc = 0
    · simp [proc_walk, walk_reads, h]
    · by_cases hp : rd32 s.mem (u64 (proc + env.offsetof_p_pid)) = pid_u32 pid
      · simp [proc_walk, walk_reads, h, hp, rk32, KState.emit]
      · simp only [proc_walk, walk_reads, h, hp, rk32, rk64, if_false]
        rw [ih]
        simp [KState.emit]

theorem proc_find_cached_state (env : Env) (fuel : Nat) (pid : Int) (s : KState) :
    (proc_find_cached env fuel pid s).2 =
      { s with log := s.log ++ lookup_reads env fuel pid s.mem s.kernproc } := by
  by_cases h : pid = 0
  · simp [proc_find_cached, lookup_reads, h]
  · simp [proc_find_cached, lookup_reads, h, proc_walk_state]

theorem proc_find_state (env : Env) (fuel : Nat) (pid : Int) (s : KState) :
    (proc_find env fuel pid s).2 =
      { s with
        kernproc := if s.kernproc = 0 then resolved_base env s.mem else s.kernproc
        log := s.log ++ calls_reads env fuel s.kernproc [(pid, s.mem)] } := by
  by_cases hk : s.kernproc = 0
  · by_cases hb : resolved_base env s.mem = 0
    · have hb' := hb
      simp only [resolved_base] at hb'
      simp [proc_find, hk, hb, hb', rk64, KState.emit, calls_reads, resolution_reads]
    · have hb' := hb
      simp only [resolved_base] at hb'
      simp [proc_find, hk, hb, hb', rk64, KState.emit, calls_reads, resolution_reads,
        proc_find_cached_state, resolved_base]
  · simp [proc_find, hk, calls_reads, proc_find_cached_state]

theorem calls_reads_cached (env : Env) (fuel head : Nat) (h : head ≠ 0) :
    ∀ calls, calls_reads env fuel head calls = cached_reads env fuel head calls := by
  intro calls
  induction calls with
  | nil => rfl
  | cons c rest ih => obtain ⟨pid, m⟩ := c; simp [calls_reads, cached_reads, h, ih]

theorem proc_find_calls_state (env : Env) (fuel : Nat) :
    ∀ (calls : List (Int × Mem)) (s : KState),
      (proc_find_calls env fuel calls s).2.log = s.log ++ calls_reads env fuel s.kernproc calls ∧
      (s.kernproc ≠ 0 → (proc_find_calls env fuel calls s).2.kernproc = s.kernproc) := by
  intro calls
  induction calls with
  | nil => intro s; simp [proc_find_calls, calls_reads]
  | cons c rest ih =>
    intro s
    obtain ⟨pid, m⟩ := c
    have hst := proc_find_state env fuel pid { s with mem := m }
    rcases hpf : proc_find env fuel pid { s with mem := m } with ⟨r, s1⟩
    rw [hpf] at hst
    dsimp only at hst
    obtain ⟨ih1, ih2⟩ := ih s1
    rcases hrest : proc_find_calls env fuel rest s1 with ⟨rs, s2⟩
    rw [hrest] at ih1 ih2
    dsimp only at ih1 ih2
    simp only [proc_find_calls, hpf, hrest]
    have hlog : s1.log = s.log ++ calls_reads env fuel s.kernproc [(pid, m)] := by rw [hst]
    have hkp : s1.kernproc = if s.kernproc = 0 then resolved_base env m else s.kernproc := by
      rw [hst]
    constructor
    · rw [ih1, hlog, hkp]
      by_cases hk : s.kernproc = 0
      · by_cases hb : resolved_base env m = 0 <;> simp [calls_reads, hk, hb]
      · simp [calls_reads, hk]
    · intro hk
      rw [hkp, if_neg hk] at ih2
      exact ih2 hk

/-- Claim C9: over any sequence of `proc_find` calls the reads issued are those of
`calls_reads`: the two reads of the resolution on each call while the cache is empty, and
none of them once a non-zero base is cached, after which every call only walks from the
cached head and the cache keeps its value; a call whose resolution reads zero returns `0`,
issues just the two reads and leaves the cache empty. -/
theorem proc_find_memo (env : Env) (fuel : Nat) (calls : List (Int × Mem)) (s : KState) :
    (proc_find_calls env fuel calls s).2.log = s.log ++ calls_reads env fuel s.kernproc calls ∧
    (s.kernproc ≠ 0 →
      (proc_find_calls env fuel calls s).2.log = s.log ++ cached_reads env fuel s.kernproc calls ∧
      (proc_find_calls env fuel calls s).2.kernproc = s.kernproc) ∧
    (∀ pid : Int, s.kernproc = 0 → resolved_base env s.mem = 0 →
      (proc_find env fuel pid s).1 = some 0 ∧
      (proc_find env fuel pid s).2.kernproc = 0 ∧
      (proc_find env fuel pid s).2.log = s.log ++ resolution_reads env s.mem) := by
  obtain ⟨h1, h2⟩ := proc_find_calls_state env fuel calls s
  refine ⟨h1, ?_, ?_⟩
  · intro hk
    exact ⟨by rw [h1, calls_reads_cached env fuel _ hk], h2 hk⟩
  · intro pid hk hb
    have hb' := hb
    simp only [resolved_base] at hb'
    simp [proc_find, hk, hb', rk64, KState.emit, resolution_reads]

/-- Witness of C9 on the mock: a call on a memory that reads zero, then two calls on the mock
memory; the first two calls each issue the two reads of the resolution and the third issues
none; with a cached head no call issues them; the call that reads zero returns `0`. -/
theorem proc_find_memo_witness :
    (proc_find_calls mock_env 3 [(1, mock_mem_unresolved), (1, mock_mem), (1, mock_mem)]
      mock_state).2.log =
      [Event.rk64 0x1000, Event.rk64 0x368,
       Event.rk64 0x1000, Event.rk64 0x2368,
       Event.rk32 0x10010, Event.rk64 0x10008, Event.rk32 0x20010,
       Event.rk32 0x10010, Event.rk64 0x10008, Event.rk32 0x20010] ∧
    ((proc_find_calls mock_env 3 [(1, mock_mem), (77, mock_mem)]
        { mock_state with kernproc := 0x10000 }).2.log =
      [Event.rk32 0x10010, Event.rk64 0x10008, Event.rk32 0x20010,
       Event.rk32 0x10010, Event.rk64 0x10008, Event.rk32 0x20010, Event.rk64 0x20008,
       Event.rk32 0x30010] ∧
     (proc_find_calls mock_env 3 [(1, mock_mem), (77, mock_mem)]
        { mock_state with kernproc := 0x10000 }).2.kernproc = 0x10000) ∧
    (resolved_base mock_env mock_mem_unresolved = 0 ∧
     (proc_find mock_env 3 1 { mock_state with mem := mock_mem_unresolved }).1 = some 0 ∧
     (proc_find mock_env 3 1 { mock_state with mem := mock_mem_unresolved }).2.kernproc = 0) :=
  ⟨(proc_find_memo mock_env 3 [(1, mock_mem_unresolved), (1, mock_mem), (1, mock_mem)]
      mock_state).1.trans (by rfl),
    ⟨((proc_find_memo mock_env 3 [(1, mock_mem), (77, mock_mem)]
        { mock_state with kernproc := 0x10000 }).2.1 (by decide)).1.trans (by rfl),
      ((proc_find_memo mock_env 3 [(1, mock_mem), (77, mock_mem)]
        { mock_state with kernproc := 0x10000 }).2.1 (by decide)).2⟩,
    ⟨by decide,
      ((proc_find_memo mock_env 3 [] { mock_state with mem := mock_mem_unresolved }).2.2 1
        (by decide) (by decide)).1,
      ((proc_find_memo mock_env 3 [] { mock_state with mem := mock_mem_unresolved }).2.2 1
        (by decide) (by decide)).2.1⟩⟩

theorem walk_reads_is_read (env : Env) (pid : Int) (m : Mem) :
    ∀ (fuel proc : Nat), ∀ e ∈ walk_reads env pid m fuel proc, e.is_read = true := by
  intro fuel
  induction fuel with
  | zero => intro proc e he; simp [walk_reads] at he
  | succ fuel ih =>
    intro proc e he
    simp only [walk_reads] at he
    split at he
    · simp at he
    · rcases List.mem_cons.mp he with h | h
      · subst h; rfl
      · split at h
        · simp at h
        · rcases List.mem_cons.mp h with h' | h'
          · subst h'; rfl
          · exact ih _ e h'

theorem calls_reads_single_is_read (env : Env) (fuel cache : Nat) (pid : Int) (m : Mem) :
    ∀ e ∈ calls_reads env fuel cache [(pid, m)], e.is_read = true := by
  intro e he
  have hl : ∀ head, ∀ e ∈ lookup_reads env fuel pid m head, e.is_read = true := by
    intro head e he
    simp only [lookup_reads] at he
    split at he
    · simp at he
    · exact walk_reads_is_read env pid m fuel head e he
  simp only [calls_reads, resolution_reads, List.append_nil] at he
  split at he
  · rcases List.mem_append.mp he with h | h
    · simp at h
      rcases h with h | h <;> subst h <;> rfl
    · split at h
      · simp at h
      · exact hl _ e h
  · exact hl _ e he

/-- Claim C10: when `proc_find` returns `0`, `fixup` returns and leaves the remote memory,
the dictionaries, arrays, strings, sandbox profiles, extension chains and the
exception-array cache as they were; everything it issued is a read of the channel, so it
made no write and no collection or sandbox call. -/
theorem fixup_unresolved (env : Env) (fuel : Nat) (pid : Int) (s : KState)
    (h : (proc_find env fuel pid s).1 = some 0) :
    ∃ s' evs, fixup env fuel pid s = some s' ∧
      s'.mem = s.mem ∧ s'.dicts = s.dicts ∧ s'.arrays = s.arrays ∧ s'.strings = s.strings ∧
      s'.sandboxes = s.sandboxes ∧ s'.ext_chain = s.ext_chain ∧
      s'.exception_osarray_cache = s.exception_osarray_cache ∧
      s'.log = s.log ++ evs ∧ ∀ e ∈ evs, e.is_read = true := by
  have hst := proc_find_state env fuel pid s
  rcases hpf : proc_find env fuel pid s with ⟨r, s1⟩
  rw [hpf] at h hst
  simp only at h hst
  subst h
  refine ⟨s1, calls_reads env fuel s.kernproc [(pid, s.mem)], ?_, ?_⟩
  · simp [fixup, hpf]
  · rw [hst]
    exact ⟨rfl, rfl, rfl, rfl, rfl, rfl, rfl, rfl, calls_reads_single_is_read env fuel _ pid _⟩

/-- Witness of C10 on the mock: no node carries pid 999. -/
theorem fixup_unresolved_witness :
    (proc_find mock_env 3 999 mock_state).1 = some 0 ∧
    ∃ s' evs, fixup mock_env 3 999 mock_state = some s' ∧
      s'.mem = mock_state.mem ∧ s'.dicts = mock_state.dicts ∧ s'.arrays = mock_state.arrays ∧
      s'.strings = mock_state.strings ∧ s'.sandboxes = mock_state.sandboxes ∧
      s'.ext_chain = mock_state.ext_chain ∧
      s'.exception_osarray_cache = mock_state.exception_osarray_cache ∧
      s'.log = mock_state.log ++ evs ∧ ∀ e ∈ evs, e.is_read = true :=
  ⟨by decide, fixup_unresolved mock_env 3 999 mock_state (by decide)⟩

/-! ## Credential and flag fixups -/

/-- Claim C6: for a process object whose executable has metadata, the writes `fixup_setuid`
issues are exactly, in order, the owner uid to the saved uid of the process and to the saved
and effective uid of the credential when the setuid bit is set, followed by the group gid to
the saved gid of the process, the saved gid of the credential and the head of its group list
when the setgid bit is set; the memory it leaves is the memory after those stores, and
every byte outside the stored words is unchanged.  With neither bit both lists are empty. -/
theorem fixup_setuid_writes (env : Env) (pid : Int) (proc : Nat) (s : KState)
    (pathbuf : String) (file_st : Stat)
    (hpath : env.proc_pidpath pid = some pathbuf) (hstat : env.lstat pathbuf = some file_st)
    (hproc : proc ≠ 0) :
    let ucred := rd64 s.mem (u64 (proc + env.offsetof_p_ucred))
    let uid := file_st.st_uid % 4294967296
    let gid := file_st.st_gid % 4294967296
    let uid_writes :=
      if file_st.st_mode &&& S_ISUID ≠ 0 then
        [(u64 (proc + env.offsetof_p_svuid), uid),
         (u64 (ucred + env.offsetof_ucred_cr_svuid), uid),
         (u64 (ucred + env.offsetof_ucred_cr_uid), uid)]
      else []
    let gid_writes :=
      if file_st.st_mode &&& S_ISGID ≠ 0 then
        [(u64 (proc + env.offsetof_p_svgid), gid),
         (u64 (ucred + env.offsetof_ucred_cr_svgid), gid),
         (u64 (ucred + env.offsetof_ucred_cr_groups), gid)]
      else []
    writes (fixup_setuid env pid proc s).log = writes s.log ++ (uid_writes ++ gid_writes) ∧
    (fixup_setuid env pid proc s).mem = apply_writes s.mem (uid_writes ++ gid_writes) ∧
    (∀ x, (∀ w ∈ uid_writes ++ gid_writes, x < w.1 ∨ w.1 + 4 ≤ x) →
      (fixup_setuid env pid proc s).mem x = s.mem x) := by
  intro ucred uid gid uid_writes gid_writes
  have h12 : writes (fixup_setuid env pid proc s).log =
        writes s.log ++ (uid_writes ++ gid_writes) ∧
      (fixup_setuid env pid proc s).mem = apply_writes s.mem (uid_writes ++ gid_writes) := by
    simp only [fixup_setuid, hpath, hstat, hproc, if_false, rk64]
    by_cases hu : file_st.st_mode &&& S_ISUID = 0 <;>
      by_cases hg : file_st.st_mode &&& S_ISGID = 0 <;>
      simp [hu, hg, uid_writes, gid_writes, wk32, KState.emit, writes_append, writes,
        apply_writes, ucred, uid, gid]
  refine ⟨h12.1, h12.2, ?_⟩
  intro x hx
  rw [h12.2]
  exact apply_writes_outside x _ _ hx

/-- Witness of C6 on the mock: the executable of pid 77 is setuid and setgid, owned by uid 0
and gid 80. -/
theorem fixup_setuid_writes_witness :
    mock_env.proc_pidpath 77 = some "/usr/bin/tool" ∧
    mock_env.lstat "/usr/bin/tool" = some ⟨0o106755, 0, 80⟩ ∧
    writes (fixup_setuid mock_env 77 0x30000 mock_state).log =
      [(0x30040, 0), (0x40020, 0), (0x40018, 0), (0x30044, 80), (0x4006c, 80), (0x40028, 80)] :=
  ⟨by decide, by decide,
    (fixup_setuid_writes mock_env 77 0x30000 mock_state "/usr/bin/tool" ⟨0o106755, 0, 80⟩
      (by decide) (by decide) (by decide)).1.trans (by decide)⟩

theorem set_csflags_true (env : Env) (proc flags : Nat) (s : KState) :
    set_csflags env proc flags true s =
      { s with
        mem := wr32 s.mem (u64 (proc + env.offsetof_p_csflags))
          (rd32 s.mem (u64 (proc + env.offsetof_p_csflags)) ||| flags % 4294967296)
        log := s.log ++ [Event.rk32 (u64 (proc + env.offsetof_p_csflags)),
          Event.wk32 (u64 (proc + env.offsetof_p_csflags))
            (rd32 s.mem (u64 (proc + env.offsetof_p_csflags)) ||| flags % 4294967296)] } := by
  simp [set_csflags, rk32, wk32, KState.emit]

theorem set_tfplatform_mem (env : Env) (proc : Nat) (s : KState) :
    (set_tfplatform env proc s).mem =
      if rd32 s.mem (u64 (rd64 s.mem (u64 (proc + env.offsetof_task)) + env.offsetof_t_flags))
          &&& TF_PLATFORM = 0 then
        wr32 s.mem (u64 (rd64 s.mem (u64 (proc + env.offsetof_task)) + env.offsetof_t_flags))
          (rd32 s.mem (u64 (rd64 s.mem (u64 (proc + env.offsetof_task)) + env.offsetof_t_flags))
            ||| TF_PLATFORM)
      else s.mem := by
  simp only [set_tfplatform, rk32, rk64, wk32, KState.emit]
  split <;> rfl

/-- Claim C4: `fixup_tfplatform` looks up `platform-application` in the entitlement
dictionary.  When the entry is not the true singleton it issues no write and leaves the
memory as it was.  When it is, and the words of `t_flags` and `csflags` do not overlap,
`t_flags` becomes its old value or-ed with `TF_PLATFORM`, `csflags` its old value or-ed with
`CS_PLATFORM_BINARY`, and every byte outside these two words is unchanged. -/
theorem fixup_tfplatform_effect (env : Env) (proc : Nat) (s : KState) :
    let key := s.dicts (amfi_entitlements_of env s.mem proc) "platform-application"
    let tf := u64 (rd64 s.mem (u64 (proc + env.offsetof_task)) + env.offsetof_t_flags)
    let cs := u64 (proc + env.offsetof_p_csflags)
    let s' := fixup_tfplatform env proc s
    (key ≠ env.offset_osboolean_true →
      s'.mem = s.mem ∧ writes s'.log = writes s.log) ∧
    (key = env.offset_osboolean_true → (tf + 4 ≤ cs ∨ cs + 4 ≤ tf) →
      rd32 s'.mem tf = rd32 s.mem tf ||| TF_PLATFORM ∧
      rd32 s'.mem cs = rd32 s.mem cs ||| CS_PLATFORM_BINARY ∧
      (∀ x, (x < tf ∨ tf + 4 ≤ x) → (x < cs ∨ cs + 4 ≤ x) → s'.mem x = s.mem x)) := by
  intro key tf cs s'
  constructor
  · intro hk
    have hk' : ¬ s.dicts (amfi_entitlements_of env s.mem proc) "platform-application" =
        env.offset_osboolean_true := hk
    simp only [amfi_entitlements_of] at hk'
    simp [s', fixup_tfplatform, rk64, OSDictionary_GetItem, hk', KState.emit, writes_append, writes]
  · intro hk hdis
    have hk' : s.dicts (amfi_entitlements_of env s.mem proc) "platform-application" =
        env.offset_osboolean_true := hk
    simp only [amfi_entitlements_of] at hk'
    have hmem : s'.mem = wr32 (if rd32 s.mem tf &&& TF_PLATFORM = 0 then
          wr32 s.mem tf (rd32 s.mem tf ||| TF_PLATFORM) else s.mem) cs
        (rd32 (if rd32 s.mem tf &&& TF_PLATFORM = 0 then
          wr32 s.mem tf (rd32 s.mem tf ||| TF_PLATFORM) else s.mem) cs ||| CS_PLATFORM_BINARY) := by
      simp only [s', fixup_tfplatform, rk64, OSDictionary_GetItem, KState.emit, hk', if_true,
        set_csflags_true, set_tfplatform_mem]
      rfl
    have htf : rd32 (if rd32 s.mem tf &&& TF_PLATFORM = 0 then
          wr32 s.mem tf (rd32 s.mem tf ||| TF_PLATFORM) else s.mem) tf
          = rd32 s.mem tf ||| TF_PLATFORM := by
      split
      · rw [rd32_wr32_same]
        exact Nat.mod_eq_of_lt (or_lt_u32 _ _ (rd32_lt _ _) (by decide))
      · next h => exact (or_bit_of_and_ne_zero _ 10 h).symm
    have hcs : rd32 (if rd32 s.mem tf &&& TF_PLATFORM = 0 then
          wr32 s.mem tf (rd32 s.mem tf ||| TF_PLATFORM) else s.mem) cs = rd32 s.mem cs := by
      split
      · exact rd32_wr32_other _ _ _ _ (by omega)
      · rfl
    refine ⟨?_, ?_, ?_⟩
    · rw [hmem, rd32_wr32_other _ _ _ _ (by omega), htf]
    · rw [hmem, rd32_wr32_same, hcs]
      exact Nat.mod_eq_of_lt (or_lt_u32 _ _ (rd32_lt _ _) (by decide))
    · intro x hx1 hx2
      rw [hmem, wr32_outside _ _ _ _ hx2]
      split
      · exact wr32_outside _ _ _ _ hx1
      · rfl

/-- Witness of C4 on the mock: without the entry nothing is written; with the entry set to
the true singleton `t_flags` (at 0x503a0) and `csflags` (at 0x302a8) gain their bit. -/
theorem fixup_tfplatform_effect_witness :
    ((fixup_tfplatform mock_env 0x30000 mock_state).mem = mock_state.mem ∧
      writes (fixup_tfplatform mock_env 0x30000 mock_state).log = []) ∧
    (rd32 (fixup_tfplatform mock_env 0x30000 mock_platform).mem 0x503a0 = 0x400 ∧
      rd32 (fixup_tfplatform mock_env 0x30000 mock_platform).mem 0x302a8 = 0x4000000) :=
  ⟨(fixup_tfplatform_effect mock_env 0x30000 mock_state).1 (by decide),
    ⟨((fixup_tfplatform_effect mock_env 0x30000 mock_platform).2 (by decide)
        (by decide)).1.trans (by decide),
      ((fixup_tfplatform_effect mock_env 0x30000 mock_platform).2 (by decide)
        (by decide)).2.1.trans (by decide)⟩⟩

/-! ## Sandbox extensions -/

/-- Claim C7: when the sandbox profile of the process is non-null and `has_file_extension`
holds for every entry of `abs_path_exceptions`, `set_sandbox_extensions` only issues its
three reads and the three `has_file_extension` queries: it calls neither
`extension_create_file` nor `extension_add`, and the sandbox profiles and everything else
but the log are unchanged. -/
theorem set_sandbox_extensions_present (env : Env) (proc : Nat) (s : KState)
    (hsb : sandbox_of env s.mem proc ≠ 0)
    (hall : ∀ p ∈ abs_path_exceptions,
      (has_file_extension (sandbox_of env s.mem proc) p s).1 = true) :
    set_sandbox_extensions env proc s =
      { s with log := s.log ++
          [Event.rk64 (u64 (proc + env.offsetof_p_ucred)),
           Event.rk64 (u64 (rd64 s.mem (u64 (proc + env.offsetof_p_ucred)) + 0x78)),
           Event.rk64 (u64 (rd64 s.mem
             (u64 (rd64 s.mem (u64 (proc + env.offsetof_p_ucred)) + 0x78)) + 0x8 + 0x8)),
           Event.has_file_extension (sandbox_of env s.mem proc) "/Library",
           Event.has_file_extension (sandbox_of env s.mem proc) "/private/var/mobile/Library",
           Event.has_file_extension (sandbox_of env s.mem proc) "/System/Library/Caches"] } := by
  simp only [abs_path_exceptions, List.mem_cons, List.mem_singleton, forall_eq_or_imp, forall_eq,
    has_file_extension, List.not_mem_nil, false_imp_iff, implies_true, and_true] at hall
  obtain ⟨h1, h2, h3⟩ := hall
  simp only [sandbox_of] at hsb h1 h2 h3
  simp [set_sandbox_extensions, rk64, hsb, abs_path_exceptions, sandbox_loop, has_file_extension,
    KState.emit, h1, h2, h3, sandbox_of]

/-- Witness of C7 on the mock whose profile already records the three paths. -/
theorem set_sandbox_extensions_present_witness :
    sandbox_of mock_env mock_extended.mem 0x30000 ≠ 0 ∧
    (∀ p ∈ abs_path_exceptions,
      (has_file_extension (sandbox_of mock_env mock_extended.mem 0x30000) p
        mock_extended).1 = true) ∧
    (set_sandbox_extensions mock_env 0x30000 mock_extended).log =
      [Event.rk64 0x30100, Event.rk64 0x40078, Event.rk64 0x60010,
       Event.has_file_extension 0x80000 "/Library",
       Event.has_file_extension 0x80000 "/private/var/mobile/Library",
       Event.has_file_extension 0x80000 "/System/Library/Caches"] ∧
    (set_sandbox_extensions mock_env 0x30000 mock_extended).sandboxes = mock_extended.sandboxes :=
  ⟨by decide, by decide,
    (congrArg KState.log (set_sandbox_extensions_present mock_env 0x30000 mock_extended
      (by decide) (by decide))).trans (by decide),
    (congrArg KState.sandboxes (set_sandbox_extensions_present mock_env 0x30000 mock_extended
      (by decide) (by decide))).trans rfl⟩

/-! ## Entitlements -/

theorem scan_items_spec (buf : Nat) (exc : String) :
    ∀ (left i : Nat) (s : KState),
      ((scan_items buf exc left i s).1 = true ↔
        ∃ j, i ≤ j ∧ j < i + left ∧
          strcasecmp_eq (s.strings (rd64 s.mem (u64 (buf + j * 8)))) exc = true) ∧
      ∃ evs, (scan_items buf exc left i s).2 = { s with log := s.log ++ evs } ∧
        merge_calls evs = [] := by
  intro left
  induction left with
  | zero =>
    intro i s
    refine ⟨?_, [], ?_, rfl⟩
    · simp only [scan_items]
      constructor
      · intro h; cases h
      · rintro ⟨j, h1, h2, _⟩; omega
    · simp [scan_items]
  | succ left ih =>
    intro i s
    by_cases hc : strcasecmp_eq (s.strings (rd64 s.mem (u64 (buf + i * 8)))) exc = true
    · refine ⟨?_, [Event.rk64 (u64 (buf + i * 8)),
        Event.OSString_CopyString (rd64 s.mem (u64 (buf + i * 8)))], ?_, rfl⟩
      · simp only [scan_items, rk64, OSString_CopyString, KState.emit, hc, if_true, true_iff]
        exact ⟨i, le_refl _, by omega, hc⟩
      · simp [scan_items, rk64, OSString_CopyString, KState.emit, hc]
    · obtain ⟨h1, evs, h2, h3⟩ := ih (i + 1)
        ((s.emit (Event.rk64 (u64 (buf + i * 8)))).emit
          (Event.OSString_CopyString (rd64 s.mem (u64 (buf + i * 8)))))
      have hstep : scan_items buf exc (left + 1) i s = scan_items buf exc left (i + 1)
          ((s.emit (Event.rk64 (u64 (buf + i * 8)))).emit
            (Event.OSString_CopyString (rd64 s.mem (u64 (buf + i * 8))))) := by
        simp only [scan_items, rk64, OSString_CopyString, KState.emit, hc]
        simp
      rw [hstep]
      refine ⟨?_, Event.rk64 (u64 (buf + i * 8)) ::
        Event.OSString_CopyString (rd64 s.mem (u64 (buf + i * 8))) :: evs, ?_, ?_⟩
      · rw [h1]
        simp only [KState.emit]
        constructor
        · rintro ⟨j, a, b, c⟩; exact ⟨j, by omega, by omega, c⟩
        · rintro ⟨j, a, b, c⟩
          have : j ≠ i := by rintro rfl; exact hc c
          exact ⟨j, by omega, by omega, c⟩
      · rw [h2]; simp [KState.emit]
      · simp [merge_calls, h3]


theorem scan_exceptions_spec (buf cnt : Nat) :
    ∀ (excs : List String) (s : KState),
      ((scan_exceptions buf cnt excs s).1 = true ↔
        ∀ p ∈ excs, ∃ j, j < cnt ∧
          strcasecmp_eq (s.strings (rd64 s.mem (u64 (buf + j * 8)))) p = true) ∧
      ∃ evs, (scan_exceptions buf cnt excs s).2 = { s with log := s.log ++ evs } ∧
        merge_calls evs = [] := by
  intro excs
  induction excs with
  | nil => intro s; exact ⟨by simp [scan_exceptions], [], by simp [scan_exceptions], rfl⟩
  | cons exc rest ih =>
    intro s
    obtain ⟨h1, evs, h2, h3⟩ := scan_items_spec buf exc cnt 0 s
    have h1' : (scan_items buf exc cnt 0 s).1 = true ↔ ∃ j, j < cnt ∧
        strcasecmp_eq (s.strings (rd64 s.mem (u64 (buf + j * 8)))) exc = true := by
      rw [h1]
      constructor
      · rintro ⟨j, _, b, c⟩; exact ⟨j, by omega, c⟩
      · rintro ⟨j, b, c⟩; exact ⟨j, by omega, by omega, c⟩
    by_cases hf : (scan_items buf exc cnt 0 s).1 = true
    · obtain ⟨g1, evs', g2, g3⟩ := ih (scan_items buf exc cnt 0 s).2
      have hstep : scan_exceptions buf cnt (exc :: rest) s =
          scan_exceptions buf cnt rest (scan_items buf exc cnt 0 s).2 := by
        simp only [scan_exceptions]
        rw [hf]
        simp
      rw [hstep]
      refine ⟨?_, evs ++ evs', ?_, ?_⟩
      · rw [g1, h2]
        simp only [List.mem_cons, forall_eq_or_imp]
        constructor
        · intro h; exact ⟨h1'.mp hf, h⟩
        · intro h; exact h.2
      · rw [g2, h2]; simp
      · simp [merge_calls_append, h3, g3]
    · have hstep : scan_exceptions buf cnt (exc :: rest) s =
          (false, (scan_items buf exc cnt 0 s).2) := by
        simp only [scan_exceptions]
        simp [hf]
      rw [hstep]
      refine ⟨?_, evs, h2, h3⟩
      simp only [List.mem_cons, forall_eq_or_imp]
      constructor
      · intro h; cases h
      · intro h; exact absurd (h1'.mpr h.1) hf

theorem mem_array_strings (s : KState) (a : Nat) (str : String) :
    str ∈ array_strings s a ↔
      ∃ j, j < (s.arrays a).count ∧ s.strings (rd64 s.mem (u64 ((s.arrays a).buffer + j * 8))) = str := by
  simp [array_strings, array_items]

theorem all_present_iff (s : KState) (a : Nat) :
    all_present s a ↔ ∀ p ∈ abs_path_exceptions, ∃ j, j < (s.arrays a).count ∧
      strcasecmp_eq (s.strings (rd64 s.mem (u64 ((s.arrays a).buffer + j * 8)))) p = true := by
  unfold all_present
  constructor
  · intro h p hp
    obtain ⟨str, hs, hc⟩ := h p hp
    obtain ⟨j, hj, rfl⟩ := (mem_array_strings s a str).mp hs
    exact ⟨j, hj, hc⟩
  · intro h p hp
    obtain ⟨j, hj, hc⟩ := h p hp
    exact ⟨_, (mem_array_strings s a _).mpr ⟨j, hj, rfl⟩, hc⟩

theorem set_amfi_booleans_spec (env : Env) (proc : Nat) (s : KState) :
    ∃ D evs, set_amfi_booleans env proc s =
        (amfi_entitlements_of env s.mem proc, { s with dicts := D, log := s.log ++ evs }) ∧
      D (amfi_entitlements_of env s.mem proc) exc_key =
        s.dicts (amfi_entitlements_of env s.mem proc) exc_key ∧
      merge_calls evs = [] := by
  by_cases h1 : s.dicts (amfi_entitlements_of env s.mem proc)
      "com.apple.private.skip-library-validation" = env.offset_osboolean_true <;>
  by_cases h2 : s.dicts (amfi_entitlements_of env s.mem proc) "get-task-allow" =
      env.offset_osboolean_true <;>
  · simp only [amfi_entitlements_of] at h1 h2
    simp only [set_amfi_booleans, rk64, OSDictionary_GetItem, OSDictionary_SetItem,
      KState.emit, amfi_entitlements_of, h1, h2, upd, List.append_assoc, List.singleton_append,
      List.cons_append, List.nil_append, ne_eq, not_true_eq_false, not_false_eq_true, if_true,
      if_false, String.reduceEq]
    refine ⟨_, _, rfl, ?_, ?_⟩
    · simp [exc_key, upd]
    · simp [merge_calls]

theorem get_exception_osarray_congr (env : Env) (t t' : KState) (hm : t'.mem = t.mem)
    (ha : t'.arrays = t.arrays) (hs : t'.strings = t.strings)
    (hc : t'.exception_osarray_cache = t.exception_osarray_cache) :
    (get_exception_osarray env t').1 = (get_exception_osarray env t).1 ∧
    (get_exception_osarray env t').2.mem = (get_exception_osarray env t).2.mem ∧
    (get_exception_osarray env t').2.arrays = (get_exception_osarray env t).2.arrays ∧
    (get_exception_osarray env t').2.strings = (get_exception_osarray env t).2.strings ∧
    (get_exception_osarray env t').2.exception_osarray_cache =
      (get_exception_osarray env t).2.exception_osarray_cache := by
  by_cases h0 : t.exception_osarray_cache = 0 <;> by_cases hx : env.xml_array = 0 <;>
    simp [get_exception_osarray, OSUnserializeXML, exception_xml_strings, store_items,
      KState.emit, hc, h0, hx, hm, ha, hs]

theorem get_exception_osarray_log (env : Env) (t : KState) :
    merge_calls (get_exception_osarray env t).2.log = merge_calls t.log ∧
    (get_exception_osarray env t).2.dicts = t.dicts := by
  by_cases h0 : t.exception_osarray_cache = 0 <;> by_cases hx : env.xml_array = 0 <;>
    simp [get_exception_osarray, OSUnserializeXML, exception_xml_strings, store_items,
      KState.emit, h0, hx, merge_calls_append, merge_calls]

theorem get_exception_osarray_again (env : Env) (t u : KState)
    (hu : u.exception_osarray_cache = (get_exception_osarray env t).2.exception_osarray_cache) :
    (get_exception_osarray env u).1 = (get_exception_osarray env t).1 := by
  by_cases h0 : t.exception_osarray_cache = 0 <;> by_cases hx : env.xml_array = 0 <;>
    simp [get_exception_osarray, OSUnserializeXML, exception_xml_strings, store_items,
      KState.emit, h0, hx] at hu ⊢ <;>
    simp [hu, hx, h0]

theorem scan_exceptions_frame (buf cnt : Nat) (excs : List String) (s : KState) :
    (scan_exceptions buf cnt excs s).2.exception_osarray_cache = s.exception_osarray_cache ∧
    merge_calls (scan_exceptions buf cnt excs s).2.log = merge_calls s.log := by
  obtain ⟨_, evs, h, he⟩ := scan_exceptions_spec buf cnt excs s
  rw [h]
  simp [merge_calls_append, he]

theorem all_present_congr (s t : KState) (a : Nat) (hm : t.mem = s.mem)
    (ha : t.arrays = s.arrays) (hs : t.strings = s.strings) :
    all_present t a ↔ all_present s a := by
  simp only [all_present, array_strings, hm, ha, hs]

theorem set_amfi_exceptions_merge (env : Env) (amfi : Nat) (t : KState)
    (hp : t.dicts amfi exc_key ≠ 0)
    (hs : t.dicts amfi exc_key ≠ (get_exception_osarray env t).1) :
    (all_present (get_exception_osarray env t).2 (t.dicts amfi exc_key) →
      merge_calls (set_amfi_exceptions env amfi t).log = merge_calls t.log) ∧
    (¬ all_present (get_exception_osarray env t).2 (t.dicts amfi exc_key) →
      merge_calls (set_amfi_exceptions env amfi t).log =
        merge_calls t.log ++
          [Event.OSArray_Merge (t.dicts amfi exc_key) (get_exception_osarray env t).1]) := by
  have hc := get_exception_osarray_congr env t
    (t.emit (Event.OSDictionary_GetItem amfi exc_key)) rfl rfl rfl rfl
  have hl := get_exception_osarray_log env (t.emit (Event.OSDictionary_GetItem amfi exc_key))
  simp only [set_amfi_exceptions, OSDictionary_GetItem]
  rcases hg : get_exception_osarray env (t.emit (Event.OSDictionary_GetItem amfi exc_key))
    with ⟨v, u⟩
  rw [hg] at hc hl
  obtain ⟨hv, hum, hua, hus, huc⟩ := hc
  simp only at hv hum hua hus huc hl
  have hs' : ¬ t.dicts amfi exc_key = v := by rw [hv]; exact hs
  simp only [hp, if_false, ne_eq, hs', not_false_eq_true, if_true, OSArray_ItemCount,
    OSArray_ItemBuffer, emit_arrays]
  obtain ⟨hscan, _⟩ := scan_exceptions_spec (u.arrays (t.dicts amfi exc_key)).buffer
    (u.arrays (t.dicts amfi exc_key)).count abs_path_exceptions
    ((u.emit (Event.OSArray_ItemCount (t.dicts amfi exc_key))).emit
      (Event.OSArray_ItemBuffer (t.dicts amfi exc_key)))
  obtain ⟨hfc, hfl⟩ := scan_exceptions_frame (u.arrays (t.dicts amfi exc_key)).buffer
    (u.arrays (t.dicts amfi exc_key)).count abs_path_exceptions
    ((u.emit (Event.OSArray_ItemCount (t.dicts amfi exc_key))).emit
      (Event.OSArray_ItemBuffer (t.dicts amfi exc_key)))
  rcases hsc : scan_exceptions (u.arrays (t.dicts amfi exc_key)).buffer
    (u.arrays (t.dicts amfi exc_key)).count abs_path_exceptions
    ((u.emit (Event.OSArray_ItemCount (t.dicts amfi exc_key))).emit
      (Event.OSArray_ItemBuffer (t.dicts amfi exc_key))) with ⟨b, w⟩
  rw [hsc] at hscan hfc hfl
  simp only [emit_mem, emit_strings, emit_cache, emit_log] at hscan hfc hfl
  have hall : b = true ↔ all_present (get_exception_osarray env t).2 (t.dicts amfi exc_key) := by
    rw [hscan, ← all_present_congr (get_exception_osarray env t).2 u _ hum hua hus,
      all_present_iff]
  have hwl : merge_calls w.log = merge_calls t.log := by
    rw [hfl]
    simp only [merge_calls_append, merge_calls, List.append_nil]
    rw [hl.1]
    simp [merge_calls_append, merge_calls]
  constructor
  · intro h
    have hb : b = true := hall.mpr h
    simp [hb, hwl]
  · intro h
    have hb : b = false := by
      cases b
      · rfl
      · exact absurd (hall.mp rfl) h
    have hagain := get_exception_osarray_again env t w (by rw [hfc, huc])
    have hl2 := get_exception_osarray_log env w
    rcases hg2 : get_exception_osarray env w with ⟨v2, u2⟩
    rw [hg2] at hagain hl2
    dsimp only at hagain hl2
    simp [hb, OSArray_Merge, merge_calls_append, merge_calls, hl2.1, hwl, hagain]

/-- Claim C5: in `set_amfi_entitlements`, when the path-exception entry of the entitlement
dictionary is present and is not the singleton array, `OSArray_Merge` is not called if every
entry of `abs_path_exceptions` equals some item of the existing array under
case-insensitive comparison, and otherwise it is called exactly once, on the existing array
and the singleton.  The array is taken as it is when scanned, after the singleton has been
looked up. -/
theorem set_amfi_entitlements_merge (env : Env) (proc : Nat) (s : KState) :
    let present := s.dicts (amfi_entitlements_of env s.mem proc) exc_key
    let single := (get_exception_osarray env s).1
    let scanned := (get_exception_osarray env s).2
    present ≠ 0 → present ≠ single →
    (all_present scanned present →
      merge_calls (set_amfi_entitlements env proc s).log = merge_calls s.log) ∧
    (¬ all_present scanned present →
      merge_calls (set_amfi_entitlements env proc s).log =
        merge_calls s.log ++ [Event.OSArray_Merge present single]) := by
  intro present single scanned hp hs
  obtain ⟨D, evs, hb, hD, hevs⟩ := set_amfi_booleans_spec env proc s
  have hc := get_exception_osarray_congr env s { s with dicts := D, log := s.log ++ evs }
    rfl rfl rfl rfl
  obtain ⟨hv, hum, hua, hus, _⟩ := hc
  have key := set_amfi_exceptions_merge env (amfi_entitlements_of env s.mem proc)
    { s with dicts := D, log := s.log ++ evs } (by simpa [hD] using hp)
    (by simp only [hD, hv]; exact hs)
  simp only [hD, hv, merge_calls_append, hevs, List.append_nil,
    all_present_congr _ _ _ hum hua hus] at key
  simp only [set_amfi_entitlements, hb]
  exact key

/-- Witness of C5 on the mock: the array holding the three entries in upper case is left
alone, the array holding only "/var/tmp/" is merged with the singleton once. -/
theorem set_amfi_entitlements_merge_witness :
    all_present (get_exception_osarray mock_env mock_satisfied).2 0xc0000 ∧
    merge_calls (set_amfi_entitlements mock_env 0x30000 mock_satisfied).log = [] ∧
    ¬ all_present (get_exception_osarray mock_env mock_missing).2 0xb0000 ∧
    merge_calls (set_amfi_entitlements mock_env 0x30000 mock_missing).log =
      [Event.OSArray_Merge 0xb0000 0x90000] :=
  ⟨by decide,
    (set_amfi_entitlements_merge mock_env 0x30000 mock_satisfied (by decide) (by decide)).1
      (by decide),
    by decide,
    (set_amfi_entitlements_merge mock_env 0x30000 mock_missing (by decide) (by decide)).2
      (by decide)⟩

/-! ## Behaviour of `fixup` on the mock -/

/-- Claim C2 fails on the code: `fixup` never calls `fixup_cs_valid`.  On the mock process
with `csflags = 0` (at 0x302a8) the word is `CS_GET_TASK_ALLOW` after `fixup`, so the
`CS_VALID` bit is clear, whereas `fixup_cs_valid` on the same state sets it. -/
theorem fixup_leaves_cs_valid_clear :
    rd32 mock_state.mem 0x302a8 = 0 ∧
    (fixup mock_env 3 77 mock_state).map (fun s => rd32 s.mem 0x302a8) =
      some CS_GET_TASK_ALLOW ∧
    (fixup mock_env 3 77 mock_state).map (fun s => rd32 s.mem 0x302a8 &&& CS_VALID) = some 0 ∧
    rd32 (fixup_cs_valid mock_env 0x30000 mock_state).mem 0x302a8 &&& CS_VALID = CS_VALID := by
  decide!

/-- Claim C3 fails on the code: on the mock whose path-exception entry is an array holding
only "/var/tmp/", one `fixup` appends the three strings of the singleton and a second
`fixup` appends them again, because the appended strings end in a slash and the scan
compares against the entries of `abs_path_exceptions`, which do not. -/
theorem fixup_twice_merges_again :
    (fixup mock_env 3 77 mock_missing).map (fun s => array_strings s 0xb0000) =
      some ["/var/tmp/", "/Library/", "/private/var/mobile/Library/",
        "/System/Library/Caches/"] ∧
    ((fixup mock_env 3 77 mock_missing).bind (fixup mock_env 3 77)).map
        (fun s => array_strings s 0xb0000) =
      some ["/var/tmp/", "/Library/", "/private/var/mobile/Library/",
        "/System/Library/Caches/", "/Library/", "/private/var/mobile/Library/",
        "/System/Library/Caches/"] := by
  decide!

/-- Claim C8 fails on the code: a failed `extension_create_file` overwrites the chain built
so far.  When only the first creation succeeds, a token was created and `extension_add` is
not called at all; when only the second creation fails, `extension_add` is called on a chain
that holds the third path alone, and the profile never receives the first. -/
theorem set_sandbox_extensions_drops_chain :
    (mock_env_first_only.ext_token "/Library" 0 = 0xa0000 ∧
      (set_sandbox_extensions mock_env_first_only 0x30000 mock_state).log =
        [Event.rk64 0x30100, Event.rk64 0x40078, Event.rk64 0x60010,
         Event.has_file_extension 0x80000 "/Library",
         Event.extension_create_file "/Library" 0,
         Event.has_file_extension 0x80000 "/private/var/mobile/Library",
         Event.extension_create_file "/private/var/mobile/Library" 0xa0000,
         Event.has_file_extension 0x80000 "/System/Library/Caches",
         Event.extension_create_file "/System/Library/Caches" 0] ∧
      (set_sandbox_extensions mock_env_first_only 0x30000 mock_state).sandboxes 0x80000 = []) ∧
    (extension_add_calls (set_sandbox_extensions mock_env_second_fails 0x30000 mock_state).log =
        [Event.extension_add 0xa2000 0x80000 exc_key] ∧
      (set_sandbox_extensions mock_env_second_fails 0x30000 mock_state).ext_chain 0xa2000 =
        ["/System/Library/Caches"] ∧
      (set_sandbox_extensions mock_env_second_fails 0x30000 mock_state).sandboxes 0x80000 =
        [(exc_key, "/System/Library/Caches")]) := by
  decide!

end KernUtils
